import Mathlib

/-
Verification development for the CSV aggregation engine of the AML daily-task
repository (src/services/csv_processing_service.py).

The Python code is shallowly embedded: pandas cell values become an inductive
`Value` type, Python floats become `PyFloat` (finite rationals plus nan/inf),
strings are handled as `List Char` at the points where the kernel must
evaluate them, and the per-case aggregation of `_aggregate_case_data` becomes
pure functions over `List Row`.  Python `float` arithmetic is modelled with
exact rationals; the thresholds compared against (10, 0.8, 0.7, 0.5, 0.3) and
the small integer counts involved make the comparisons coincide.
-/

namespace AML

/-! ### Character/string helpers

Python string operations (`str.strip`, `str.lower`, substring containment as
used by `Series.str.contains` with a literal-alternation pattern) are modelled
over `List Char` by Unicode code point, which is exactly Python's semantics.
-/

/-- Whitespace per Python `str.strip` (space, tab, LF, CR, FF, VT). -/
def isPySpace (c : Char) : Bool :=
  c.toNat = 32 || c.toNat = 9 || c.toNat = 10 || c.toNat = 13 || c.toNat = 12 || c.toNat = 11

/-- Model of Python `str.strip`: drop leading and trailing whitespace. -/
def trimChars (l : List Char) : List Char :=
  ((l.dropWhile isPySpace).reverse.dropWhile isPySpace).reverse

/-- Lower-cased code point of a character (ASCII case folding, which is all
that matters for the ASCII tokens compared in the source; the Chinese keyword
literals have no case). -/
def lowerVal (c : Char) : Nat :=
  if 65 ≤ c.toNat ∧ c.toNat ≤ 90 then c.toNat + 32 else c.toNat

/-- Case-insensitive equality of two character lists by lower-cased code
points — the model of comparing `s.lower()` against a lowercase token. -/
def eqModCase (a b : List Char) : Bool :=
  a.map lowerVal = b.map lowerVal

/-- Membership of the lower-cased input in a list of (lowercase) sentinel
tokens: the model of Python `s.strip().lower() in [...]`. -/
def inTokens (l : List Char) (toks : List String) : Bool :=
  toks.any fun t => eqModCase l t.toList

/-- Boolean test that `p` is an initial segment of `l` (code-point equality). -/
def leadMatch : List Char → List Char → Bool
  | [], _ => true
  | _ :: _, [] => false
  | a :: as, b :: bs => a = b && leadMatch as bs

/-- Boolean substring-occurrence test: the model of matching one literal
alternative of a `Series.str.contains` regex pattern (the patterns used by
the source are pure alternations of literal keywords). -/
def occursIn (p : List Char) : List Char → Bool
  | [] => p.isEmpty
  | c :: cs => leadMatch p (c :: cs) || occursIn p cs

/-- Substring containment on `String`, by code points (Python `in` /
`str.contains` with a literal). -/
def strContains (hay pat : String) : Bool :=
  occursIn pat.toList hay.toList

/-- Code-point-lexicographic comparison of two code-point lists, the order
Python `sorted` uses on strings. -/
def lexLeB : List Nat → List Nat → Bool
  | [], _ => true
  | _ :: _, [] => false
  | a :: as, b :: bs => if a < b then true else if a = b then lexLeB as bs else false

/-- Python string comparison (by code points), as used by `sorted(keywords)`. -/
def pyStrLeB (a b : String) : Bool :=
  lexLeB (a.toList.map Char.toNat) (b.toList.map Char.toNat)

/-- Boolean membership in a string list, the model of Python `x in seen_set`
(the process-wide dedup set is modelled as the list of its elements). -/
def memKey (k : String) : List String → Bool
  | [] => false
  | a :: as => k == a || memKey k as

/-- Boolean membership in an integer list (used for timestamp-based
de-duplication of the sample rows). -/
def memInt (k : ℤ) : List ℤ → Bool
  | [] => false
  | a :: as => k == a || memInt k as

/-! ### Python floats and `_safe_convert_to_float` (source lines 94-108)

A Python float is either a finite value (modelled exactly as a rational),
`nan`, `inf` or `-inf`.  `pyFloatOfChars` models the builtin `float(str)`:
optional surrounding whitespace, an optional sign, then case-insensitively
`inf`/`infinity`/`nan` or a decimal literal `digits[.digits][(e|E)[sign]digits]`
with at least one mantissa digit.  (The underscore digit-separator accepted by
Python since 3.6 is not modelled; no claim involves it.)  `none` models the
`ValueError` raised on any other string. -/

inductive PyFloat where
  | finite (q : ℚ)
  | nan
  | inf
  | neginf
deriving DecidableEq

/-- Numeric value of a digit run (most significant first). -/
def digitsToNat (l : List Char) : Nat :=
  l.foldl (fun a c => 10 * a + (c.toNat - 48)) 0

/-- Split a character list into its maximal leading digit run and the rest. -/
def readDigits (l : List Char) : List Char × List Char :=
  (l.takeWhile Char.isDigit, l.dropWhile Char.isDigit)

/-- Parse an unsigned decimal literal with optional fraction and exponent,
exactly the numeric-literal body accepted by Python `float`. -/
def parseDecimal (l : List Char) : Option ℚ :=
  let ip := readDigits l
  let fr : List Char × List Char :=
    match ip.2 with
    | '.' :: rest => readDigits rest
    | _ => ([], ip.2)
  if ip.1.isEmpty ∧ fr.1.isEmpty then Option.none
  else
    let mant : ℚ :=
      if fr.1.isEmpty then (digitsToNat ip.1 : ℚ)
      else (digitsToNat ip.1 : ℚ) + (digitsToNat fr.1 : ℚ) / (10 : ℚ) ^ fr.1.length
    match fr.2 with
    | [] => some mant
    | e :: rest =>
      if e = 'e' ∨ e = 'E' then
        let se : Bool × List Char :=
          match rest with
          | '+' :: t => (false, t)
          | '-' :: t => (true, t)
          | t => (false, t)
        let ed := readDigits se.2
        if ed.1.isEmpty ∨ ¬ ed.2.isEmpty then Option.none
        else some (mant * (10 : ℚ) ^ (if se.1 then -(digitsToNat ed.1 : ℤ) else (digitsToNat ed.1 : ℤ)))
      else Option.none

/-- Python `float(s)` on a character list: strip whitespace, optional sign,
then `inf`/`infinity`/`nan` (case-insensitive) or a decimal literal. -/
def pyFloatOfChars (l : List Char) : Option PyFloat :=
  let t := trimChars l
  let sb : Bool × List Char :=
    match t with
    | '+' :: r => (false, r)
    | '-' :: r => (true, r)
    | r => (false, r)
  if eqModCase sb.2 "inf".toList ∨ eqModCase sb.2 "infinity".toList then
    some (if sb.1 then PyFloat.neginf else PyFloat.inf)
  else if eqModCase sb.2 "nan".toList then
    some PyFloat.nan
  else
    match parseDecimal sb.2 with
    | some q => some (PyFloat.finite (if sb.1 then -q else q))
    | Option.none => Option.none

/-- Python `float(s)` on a `String`. -/
def pyFloatOfString (s : String) : Option PyFloat :=
  pyFloatOfChars s.toList

/-- A raw cell value as seen by the service: Python `None`, a float `NaN`
(`pd.isna` true), an already-numeric value, or a string. -/
inductive Value where
  | noneV
  | nanV
  | num (q : ℚ)
  | str (s : String)
deriving DecidableEq

/-- Sentinel tokens of `_safe_convert_to_float` (source line 104). -/
def floatSentinels : List String :=
  ["null", "n/a", "nan", "inf", "-inf", "<null>", "#n/a"]

/-- Embedding of `_safe_convert_to_float` (source lines 94-108):
`pd.isna(value) or value == '' or value is None` returns the default; then
`float(value)` is attempted (a `try` whose failure is `Option.none` here);
on failure `str(value).strip().lower()` is compared against the sentinel
list and `float` is attempted once more on the cleaned string.  The second
attempt is modelled on the trimmed characters: lower-casing cannot change
the outcome of `float`, which is already case-insensitive on `inf`/`nan`/`E`
and leaves digits unchanged. -/
def safe_convert_to_float (v : Value) (default : PyFloat) : PyFloat :=
  match v with
  | Value.noneV => default
  | Value.nanV => default
  | Value.num q => PyFloat.finite q
  | Value.str s =>
    if s = "" then default
    else
      match pyFloatOfString s with
      | some f => f
      | Option.none =>
        if inTokens (trimChars s.toList) floatSentinels then default
        else
          match pyFloatOfChars (trimChars s.toList) with
          | some f => f
          | Option.none => default

/-! ### The flexible timestamp parser `_parse_flexible_datetime`
(source lines 132-169)

Each `strptime`-style format of the source's list becomes a token sequence
matched against the character list.  The matcher follows CPython's
`_strptime` regexes: `%Y` is exactly four digits; `%m`, `%d`, `%H`, `%M`,
`%S` are one- or two-digit runs within their calendar/clock ranges (each
directive in these formats is followed by a non-digit literal or the end of
input, so maximal-digit-run matching coincides with the regex semantics).
After a textual match, the date is validated as a real calendar date —
`ValueError` is raised for e.g. Feb 30 or year 0 — and against the pandas
`Timestamp` nanosecond bounds (about 1677-09-21 to 2262-04-11):
`pd.to_datetime(..., errors='raise')` raises `OutOfBoundsDatetime`, a
`ValueError` subclass, outside them.  Both are caught by the source's
per-format `except ValueError: continue`, meaning "try the next format".
The eleventh entry of the source's list, `'%Y-%m-%d %h:%i:%s'`, uses
MySQL-style directives that are invalid for strptime, so it raises
`ValueError` on every input and never matches: it is modelled as a parser
that always fails.  The final permissive fallback
(`pd.to_datetime(str_val, errors='coerce')`) is a parameter of the model. -/

structure PyDateTime where
  year : Nat
  month : Nat
  day : Nat
  hour : Nat
  minute : Nat
  second : Nat
deriving DecidableEq

/-- One strptime directive or literal character of a format string. -/
inductive FTok where
  | lit (c : Char)
  | y4
  | mo
  | dy
  | hr
  | mi
  | sec
deriving DecidableEq

/-- Partially filled parse result, with strptime's defaults (1900-01-01
00:00:00). -/
structure DtParts where
  year : Nat := 1900
  month : Nat := 1
  day : Nat := 1
  hour : Nat := 0
  minute : Nat := 0
  second : Nat := 0
deriving DecidableEq

/-- Match a token sequence against the input, requiring full consumption
(strptime errors on unconverted trailing data). -/
def matchToks : List FTok → List Char → DtParts → Option DtParts
  | [], l, st => if l.isEmpty then some st else Option.none
  | FTok.lit c :: ts, l, st =>
    match l with
    | [] => Option.none
    | x :: xs => if x = c then matchToks ts xs st else Option.none
  | FTok.y4 :: ts, l, st =>
    let d := readDigits l
    if d.1.length = 4 then matchToks ts d.2 { st with year := digitsToNat d.1 }
    else Option.none
  | FTok.mo :: ts, l, st =>
    let d := readDigits l
    let v := digitsToNat d.1
    if (d.1.length = 1 ∨ d.1.length = 2) ∧ 1 ≤ v ∧ v ≤ 12 then
      matchToks ts d.2 { st with month := v }
    else Option.none
  | FTok.dy :: ts, l, st =>
    let d := readDigits l
    let v := digitsToNat d.1
    if (d.1.length = 1 ∨ d.1.length = 2) ∧ 1 ≤ v ∧ v ≤ 31 then
      matchToks ts d.2 { st with day := v }
    else Option.none
  | FTok.hr :: ts, l, st =>
    let d := readDigits l
    let v := digitsToNat d.1
    if (d.1.length = 1 ∨ d.1.length = 2) ∧ v ≤ 23 then
      matchToks ts d.2 { st with hour := v }
    else Option.none
  | FTok.mi :: ts, l, st =>
    let d := readDigits l
    let v := digitsToNat d.1
    if (d.1.length = 1 ∨ d.1.length = 2) ∧ v ≤ 59 then
      matchToks ts d.2 { st with minute := v }
    else Option.none
  | FTok.sec :: ts, l, st =>
    let d := readDigits l
    let v := digitsToNat d.1
    if (d.1.length = 1 ∨ d.1.length = 2) ∧ v ≤ 59 then
      matchToks ts d.2 { st with second := v }
    else Option.none

/-- Gregorian leap-year test, as in Python `datetime`. -/
def isLeap (y : Nat) : Bool :=
  (y % 4 = 0 && y % 100 ≠ 0) || y % 400 = 0

/-- Days in a month, as validated by Python `datetime`. -/
def daysInMonth (y m : Nat) : Nat :=
  if m = 2 then (if isLeap y then 29 else 28)
  else if m = 4 ∨ m = 6 ∨ m = 9 ∨ m = 11 then 30
  else 31

/-- Order-faithful encoding of a wall-clock tuple, used to compare a parsed
datetime against the pandas `Timestamp` bounds.  On the values `buildDT`
receives (month 1-12, day 1-31, hour at most 23, minute and second at most
59, as enforced by `matchToks`) this is exactly lexicographic order on
`(year, month, day, hour, minute, second)`. -/
def tsKey (y mon d h mi s : Nat) : Nat :=
  ((((y * 13 + mon) * 32 + d) * 24 + h) * 60 + mi) * 60 + s

/-- Validation performed by one `pd.to_datetime(str_val, format=fmt,
errors='raise')` attempt after a textual match: the date must be a real
calendar date (year at least 1, day no larger than the month's length —
`datetime` raises `ValueError` otherwise) and must lie inside the pandas
`Timestamp` nanosecond range, `1677-09-21 00:12:43.145224193` to
`2262-04-11 23:47:16.854775807` — outside it pandas raises
`OutOfBoundsDatetime`, a `ValueError` subclass.  Either way the source's
`except ValueError: continue` treats the attempt as a non-match.  For the
whole-second datetimes these formats produce, the in-range instants are
exactly those from `1677-09-21 00:12:44` to `2262-04-11 23:47:16`
inclusive. -/
def buildDT (st : DtParts) : Option PyDateTime :=
  if 1 ≤ st.year ∧ st.day ≤ daysInMonth st.year st.month ∧
      tsKey 1677 9 21 0 12 44 ≤ tsKey st.year st.month st.day st.hour st.minute st.second ∧
      tsKey st.year st.month st.day st.hour st.minute st.second ≤ tsKey 2262 4 11 23 47 16 then
    some ⟨st.year, st.month, st.day, st.hour, st.minute, st.second⟩
  else Option.none

/-- Try one exact format against the (already stripped) input. -/
def tryFmt (f : List FTok) (l : List Char) : Option PyDateTime :=
  (matchToks f l {}).bind buildDT

/-- Format `%Y-%m-%d %H:%M:%S`. -/
def fmtYmdHMS : List FTok :=
  [FTok.y4, FTok.lit '-', FTok.mo, FTok.lit '-', FTok.dy, FTok.lit ' ',
   FTok.hr, FTok.lit ':', FTok.mi, FTok.lit ':', FTok.sec]

/-- Format `%Y/%m/%d %H:%M:%S`. -/
def fmtYmdSlashHMS : List FTok :=
  [FTok.y4, FTok.lit '/', FTok.mo, FTok.lit '/', FTok.dy, FTok.lit ' ',
   FTok.hr, FTok.lit ':', FTok.mi, FTok.lit ':', FTok.sec]

/-- Format `%m/%d/%Y %H:%M:%S`. -/
def fmtMdYHMS : List FTok :=
  [FTok.mo, FTok.lit '/', FTok.dy, FTok.lit '/', FTok.y4, FTok.lit ' ',
   FTok.hr, FTok.lit ':', FTok.mi, FTok.lit ':', FTok.sec]

/-- Format `%d/%m/%Y %H:%M:%S`. -/
def fmtDmYHMS : List FTok :=
  [FTok.dy, FTok.lit '/', FTok.mo, FTok.lit '/', FTok.y4, FTok.lit ' ',
   FTok.hr, FTok.lit ':', FTok.mi, FTok.lit ':', FTok.sec]

/-- Format `%Y-%m-%d`. -/
def fmtYmd : List FTok :=
  [FTok.y4, FTok.lit '-', FTok.mo, FTok.lit '-', FTok.dy]

/-- Format `%Y/%m/%d`. -/
def fmtYmdSlash : List FTok :=
  [FTok.y4, FTok.lit '/', FTok.mo, FTok.lit '/', FTok.dy]

/-- Format `%m/%d/%Y`. -/
def fmtMdY : List FTok :=
  [FTok.mo, FTok.lit '/', FTok.dy, FTok.lit '/', FTok.y4]

/-- Format `%d/%m/%Y`. -/
def fmtDmY : List FTok :=
  [FTok.dy, FTok.lit '/', FTok.mo, FTok.lit '/', FTok.y4]

/-- Format `%Y-%m-%d %H:%M`. -/
def fmtYmdHM : List FTok :=
  [FTok.y4, FTok.lit '-', FTok.mo, FTok.lit '-', FTok.dy, FTok.lit ' ',
   FTok.hr, FTok.lit ':', FTok.mi]

/-- Format `%m/%d/%Y %H:%M`. -/
def fmtMdYHM : List FTok :=
  [FTok.mo, FTok.lit '/', FTok.dy, FTok.lit '/', FTok.y4, FTok.lit ' ',
   FTok.hr, FTok.lit ':', FTok.mi]

/-- The eleventh format of the source list, `'%Y-%m-%d %h:%i:%s'`: its
MySQL-style directives `%h`, `%i`, `%s` are invalid strptime directives, so
the library raises `ValueError` for every input and the loop moves on — it
never matches anything. -/
def fmtMySqlNever : List Char → Option PyDateTime :=
  fun _ => Option.none

/-- The source's format list (source lines 146-158), in declared order. -/
def formatParsers : List (List Char → Option PyDateTime) :=
  [tryFmt fmtYmdHMS, tryFmt fmtYmdSlashHMS, tryFmt fmtMdYHMS, tryFmt fmtDmYHMS,
   tryFmt fmtYmd, tryFmt fmtYmdSlash, tryFmt fmtMdY, tryFmt fmtDmY,
   tryFmt fmtYmdHM, tryFmt fmtMdYHM, fmtMySqlNever]

/-- First successful parser wins (the source's `for fmt in formats` loop with
`except ValueError: continue`). -/
def firstMatch : List (List Char → Option PyDateTime) → List Char → Option PyDateTime
  | [], _ => Option.none
  | p :: ps, l =>
    match p l with
    | some d => some d
    | Option.none => firstMatch ps l

/-- A raw timestamp cell: Python `None`, `NaN`, an already-parsed
datetime/Timestamp object, or a string. -/
inductive DtValue where
  | noneV
  | nanV
  | dt (d : PyDateTime)
  | str (s : String)
deriving DecidableEq

/-- Null-sentinel tokens of `convert_single_datetime` (source line 143). -/
def dtSentinels : List String :=
  ["null", "n/a", "nan", "<null>", "#n/a", ""]

/-- Embedding of `convert_single_datetime` inside `_parse_flexible_datetime`
(source lines 134-167).  The permissive general-purpose inference used as a
last resort (`pd.to_datetime(str_val, errors='coerce')`, which returns `NaT`
on failure) is the `fallback` parameter, applied to the stripped string. -/
def convert_single_datetime (fallback : String → Option PyDateTime) :
    DtValue → Option PyDateTime
  | DtValue.noneV => Option.none
  | DtValue.nanV => Option.none
  | DtValue.dt d => some d
  | DtValue.str s =>
    if s = "" then Option.none
    else
      if inTokens (trimChars s.toList) dtSentinels then Option.none
      else
        match firstMatch formatParsers (trimChars s.toList) with
        | some d => some d
        | Option.none => fallback (String.mk (trimChars s.toList))

/-- Embedding of `_parse_flexible_datetime` (source lines 132-169): the
series version applies the single-value conversion elementwise. -/
def parse_flexible_datetime (fallback : String → Option PyDateTime)
    (series : List DtValue) : List (Option PyDateTime) :=
  series.map (convert_single_datetime fallback)

/-! ### Transaction rows and the per-case aggregation
(`_aggregate_case_data`, source lines 238-521)

A `Row` carries the attributes the claims touch, in the state they have when
`_aggregate_case_data` receives them: `trans_amt` has already been through
`_safe_convert_to_float` (so it is a plain number, default 0.0), and
`trans_datetime`/`hour` have been derived by `_process_chunk`.  Timestamps
are modelled as abstract instants (integers) since only their order and
de-duplication matter to the claims; `hour` is carried separately just as
the derived `hour` column is. -/

structure Row where
  case_id : Option String := Option.none
  trans_key : Option String := Option.none
  trans_amt : ℚ := 0
  trans_datetime : Option ℤ := Option.none
  hour : Option Nat := Option.none
  fund_usage : Option String := Option.none
  ip_addr : Option String := Option.none
  mac_addr : Option String := Option.none
  counterparty_name : Option String := Option.none
  currency : Option String := Option.none
deriving DecidableEq

/-- The `trans_amt` column of a group; every entry is non-null after
`_process_chunk`, so `valid_trans_amt` (source lines 263 and 401) is the
whole column. -/
def amounts (g : List Row) : List ℚ :=
  g.map Row.trans_amt

/-- The non-null entries of the derived `hour` column
(`valid_hours = g['hour'].dropna()`, source line 256). -/
def validHours (g : List Row) : List Nat :=
  g.filterMap Row.hour

/-- Night transactions: hour at least 23 or at most 6 (source line 257). -/
def nightCnt (g : List Row) : Nat :=
  ((validHours g).filter fun h => 23 ≤ h || h ≤ 6).length

/-- Mean transaction amount, 0.0 for an empty group (source lines 263-264
and 404). -/
def avgAmt (g : List Row) : ℚ :=
  if g.isEmpty then 0 else (amounts g).sum / (g.length : ℚ)

/-- Python `x % m == 0` for a float holding an exact value: the value is an
integer divisible by `m`. -/
def isMultipleOf (q : ℚ) (m : ℤ) : Bool :=
  q.den = 1 && q.num % m = 0

/-- Count of integer-valued amounts (`x.is_integer()`, source line 276). -/
def intAmtCnt (g : List Row) : Nat :=
  ((amounts g).filter fun q => q.den = 1).length

/-- Count of amounts divisible by 100, 1000 or 10000 (source lines 281-285). -/
def roundAmtCnt (g : List Row) : Nat :=
  ((amounts g).filter fun q =>
    isMultipleOf q 100 || isMultipleOf q 1000 || isMultipleOf q 10000).length

/-- Distinct non-null `ip_addr` count (`dropna().nunique()`, source lines
298 and 471). -/
def uniqueIps (g : List Row) : Nat :=
  ((g.filterMap Row.ip_addr).eraseDups).length

/-- Distinct non-null `mac_addr` count (source lines 306 and 484). -/
def uniqueMacs (g : List Row) : Nat :=
  ((g.filterMap Row.mac_addr).eraseDups).length

/-- Null counterparty-name count (source line 315). -/
def nanCounterpartyCnt (g : List Row) : Nat :=
  (g.filter fun r => r.counterparty_name.isNone).length

/-- The `fund_usage` suspicious-purpose test
(`str.contains('充值|返现|游戏|彩票')` on the null-filled column, source
lines 320-323). -/
def suspiciousUsage (g : List Row) : Bool :=
  g.any fun r =>
    strContains (r.fund_usage.getD "") "充值" || strContains (r.fund_usage.getD "") "返现" ||
    strContains (r.fund_usage.getD "") "游戏" || strContains (r.fund_usage.getD "") "彩票"

/-- The risk-keyword set at the moment `risk_keywords` is rendered (source
lines 260-323; the rendering at line 432 happens before the dispersion
checks of lines 465-493 run).  The set is modelled as a duplicate-free list
in insertion order; rendering sorts it anyway. -/
def keywordList (g : List Row) : List String :=
  (if avgAmt g ≤ 10 then ["小额"] else []) ++
  (if 50 ≤ g.length then ["高频"] else []) ++
  (if 0 < (validHours g).length ∧
      ((nightCnt g : ℚ) / ((validHours g).length : ℚ) > 8/10) then ["夜间"] else []) ++
  (if 0 < g.length ∧ ((intAmtCnt g : ℚ) / (g.length : ℚ) > 7/10) then ["整数金额高"] else []) ++
  (if 0 < g.length ∧ ((roundAmtCnt g : ℚ) / (g.length : ℚ) > 5/10) then ["整额交易"] else []) ++
  (if 1 < uniqueIps g then ["多IP"] else []) ++
  (if 1 < uniqueMacs g then ["多设备"] else []) ++
  (if (nanCounterpartyCnt g : ℚ) > (g.length : ℚ) * (1/2) then ["匿名"] else []) ++
  (if suspiciousUsage g = true then ["可疑用途"] else [])

/-- Python `sorted(keywords)` (code-point order). -/
def sortedKeywords (g : List Row) : List String :=
  List.insertionSort (fun a b => pyStrLeB a b = true) (keywordList g)

/-- The rendered `risk_keywords` cell: `','.join(sorted(keywords))`
(source line 432). -/
def risk_keywords (g : List Row) : String :=
  String.intercalate "," (sortedKeywords g)

/-- The IP-dispersion test of source lines 470-477: positive distinct-IP
count, positive row count, and distinct/total above one half. -/
def ipDisp (g : List Row) : Bool :=
  decide (0 < uniqueIps g) && decide (0 < g.length) &&
    decide ((uniqueIps g : ℚ) / (g.length : ℚ) > 1/2)

/-- The MAC-dispersion test of source lines 483-491, threshold 0.3. -/
def macDisp (g : List Row) : Bool :=
  decide (0 < uniqueMacs g) && decide (0 < g.length) &&
    decide ((uniqueMacs g : ℚ) / (g.length : ℚ) > 3/10)

/-- The keyword set after the dispersion checks also ran (source lines 478
and 491).  These two additions happen after `risk_keywords` was already
rendered at line 432, so this set is never read again — the rendered string
comes from `keywordList`. -/
def keywordsFinal (g : List Row) : List String :=
  keywordList g ++
  (if ipDisp g then ["IP分散"] else []) ++
  (if macDisp g then ["设备分散"] else [])

/-- The network-gambling test of source lines 456-461: at least 50 rows,
mean amount at most 10, night ratio above 0.8 over the valid hours, and some
`fund_usage` matching the recharge/cashback pattern `'充值|返现'`. -/
def networkGambling (g : List Row) : Bool :=
  decide (50 ≤ g.length) && decide (avgAmt g ≤ 10) &&
  decide (0 < (validHours g).length) &&
  decide ((nightCnt g : ℚ) / ((validHours g).length : ℚ) > 8/10) &&
  (g.any fun r =>
    strContains (r.fund_usage.getD "") "充值" || strContains (r.fund_usage.getD "") "返现")

/-- The rendered suspicion flag (source lines 496-499): `'是'` when the
gambling pattern, the IP dispersion or the MAC dispersion fires, else `'否'`. -/
def is_network_gambling_suspected (g : List Row) : String :=
  if networkGambling g || ipDisp g || macDisp g then "是" else "否"

/-! ### Representative-sample extraction (source lines 325-369) -/

/-- The low-value/automatic keyword list of source line 329. -/
def lowValueKeywords : List String :=
  ["扣费", "手续费", "服务费", "系统", "自动", "代扣", "短信费", "管理费", "工本费"]

/-- Whether a row's `fund_usage` (null-filled to the empty string) matches
the low-value pattern (source lines 334-336). -/
def isLowValue (r : Row) : Bool :=
  lowValueKeywords.any fun k => strContains (r.fund_usage.getD "") k

/-- Filter out low-value rows, falling back to the whole group when the
filter leaves nothing (source lines 331-340). -/
def validTrx (g : List Row) : List Row :=
  let f := g.filter fun r => !(isLowValue r)
  if f.isEmpty then g else f

/-- Rows with a non-null timestamp (source line 343). -/
def withDt (g : List Row) : List Row :=
  (validTrx g).filter fun r => r.trans_datetime.isSome

/-- Sort key of a sample row. -/
def dtKey (r : Row) : ℤ :=
  r.trans_datetime.getD 0

/-- `nsmallest(3, 'trans_datetime')`: stable ascending sort, first three
(pandas `keep='first'` prefers earlier rows on ties, as a stable sort does). -/
def firstTrx (g : List Row) : List Row :=
  (List.insertionSort (fun a b => dtKey a ≤ dtKey b) (withDt g)).take 3

/-- `nlargest(3, 'trans_datetime')`: stable descending sort, first three. -/
def lastTrx (g : List Row) : List Row :=
  (List.insertionSort (fun a b => dtKey b ≤ dtKey a) (withDt g)).take 3

/-- Concatenation of the two extracts, only taken when any timestamped row
exists (source lines 344-350). -/
def combinedTrx (g : List Row) : List Row :=
  if (withDt g).isEmpty then [] else firstTrx g ++ lastTrx g

/-- `drop_duplicates(subset=['trans_datetime'])`: keep the first row of each
exact timestamp. -/
def dedupByDt (seen : List ℤ) : List Row → List Row
  | [] => []
  | r :: rs =>
    if memInt (dtKey r) seen then dedupByDt seen rs
    else r :: dedupByDt (dtKey r :: seen) rs

/-- One emitted sample record (source lines 357-369).  The date/time string
renderings (`TR_DT`, `TR_TM`) and the remaining pass-through text fields are
outside the model; the fields the claims speak about are kept. -/
structure SampleTrx where
  tr_amt : ℚ
  curr_cd : String
  opp_name : String
  fund_use : String
deriving DecidableEq

/-- Build one sample record from a row: the amount passes through
`_safe_convert_to_float` unchanged (it is already a float), the currency
defaults to `'CNY'` exactly when the cell is null
(`_safe_convert_to_str(trx.get('currency', ''), 'CNY')`), the text fields
default to the empty string. -/
def mkSample (r : Row) : SampleTrx :=
  { tr_amt := r.trans_amt
    curr_cd := r.currency.getD "CNY"
    opp_name := r.counterparty_name.getD ""
    fund_use := r.fund_usage.getD "" }

/-- The emitted `sample_trx_list` (source lines 326-369). -/
def sample_trx_list (g : List Row) : List SampleTrx :=
  (dedupByDt [] (combinedTrx g)).map mkSample

/-! ### Cross-chunk deduplication (`_process_chunk`, source lines 198-236,
and the accumulation loop of `preprocess_csv`, source lines 557-593)

Only the dedup-relevant attributes matter here.  The process-wide
`seen_case_trans_keys` set is modelled as the list of its elements (all
uses are membership tests and unions, so list membership is an exact
model). -/

/-- Rows whose `case_id` and `trans_key` are both present survive the
`dropna(subset=['trans_key', 'case_id'])` of source line 218. -/
def hasIds (r : Row) : Bool :=
  r.case_id.isSome && r.trans_key.isSome

/-- The composite dedup key `case_id + '_' + trans_key` (source line 222). -/
def ckey (r : Row) : String :=
  r.case_id.getD "" ++ "_" ++ r.trans_key.getD ""

/-- Embedding of the dedup part of `_process_chunk` (source lines 216-234):
drop rows missing either identifier, keep the rows whose composite key is
not in the seen set (the mask is computed against the set as it was before
this chunk), then add the surviving keys to the set. -/
def process_chunk (seen : List String) (chunk : List Row) : List Row × List String :=
  let idRows := chunk.filter hasIds
  let kept := idRows.filter fun r => !(memKey (ckey r) seen)
  (kept, seen ++ kept.map ckey)

/-- Fold `_process_chunk` over the chunk sequence, threading the seen-key
set, and concatenate the surviving rows (the accumulation into `all_groups`
keeps every surviving row, grouped by case, in arrival order). -/
def run_chunks (seen : List String) : List (List Row) → List Row
  | [] => []
  | c :: cs =>
    let pc := process_chunk seen c
    pc.1 ++ run_chunks pc.2 cs

/-- All rows surviving a pipeline run that starts with an empty seen set
(source line 543 resets it). -/
def pipeline_survivors (chunks : List (List Row)) : List Row :=
  run_chunks [] chunks

/-- The accumulated group of one case after all chunks were processed. -/
def accum_group (chunks : List (List Row)) (c : String) : List Row :=
  (pipeline_survivors chunks).filter fun r => r.case_id == some c

/-- The `trans_count` the Case Aggregator later reports for a case:
`len(g)` of its accumulated group (source lines 403 and 424). -/
def trans_count (chunks : List (List Row)) (c : String) : Nat :=
  (accum_group chunks c).length

/-- Reference characterisation: keep each row whose composite key was not
seen before it (scanning all identifier-bearing rows in pipeline order). -/
def firstOccs (seen : List String) : List Row → List Row
  | [] => []
  | r :: rs =>
    if memKey (ckey r) seen then firstOccs seen rs
    else r :: firstOccs (ckey r :: seen) rs

/-- The seen-key list after scanning a row list. -/
def seenAfter (seen : List String) : List Row → List String
  | [] => seen
  | r :: rs =>
    if memKey (ckey r) seen then seenAfter seen rs
    else seenAfter (ckey r :: seen) rs

/-- All identifier-bearing rows of a run, in pipeline order. -/
def allIdRows (chunks : List (List Row)) : List Row :=
  chunks.flatMap fun ch => ch.filter hasIds

/-! ### Case-level isolation in `_aggregate_case_data`
(source lines 243-521)

The `for case_id, group in grouped_data` loop wraps each case's aggregation
in `try/except`: a raised exception is logged and skipped (`continue`), a
success appends the result and records the case id.  The aggregation body
itself — whose exceptions come from pandas-level surprises that a pure
model cannot raise — is abstracted as a function returning `Option`:
`none` models "this case's aggregation raised". -/

def aggregate_case_data {α : Type} (aggOne : String → List Row → Option α)
    (gs : List (String × List Row)) : List α × List String :=
  (gs.filterMap fun cg => aggOne cg.1 cg.2,
   gs.filterMap fun cg => (aggOne cg.1 cg.2).map fun _ => cg.1)

/-! ### The Dify entry point `process_csv_for_dify` (source lines 748-776)

The two processing branches perform file IO, so they are abstracted as the
functions `preFile` (the `service.preprocess_csv(csv_file_path,
output_path)` call) and `preContent` (the
`service.process_csv_content(csv_content, output_path)` call), both already
closed over the output path.  What is embedded is the branch structure
itself: Python truthiness of the two optional string arguments (`None` and
`""` are both falsy), with the file-path branch tested first. -/

/-- Result dictionary shape of the service entry points. -/
structure DifyResult where
  success : Bool
  message : String
  processed_count : Nat
  output_file : Option String
deriving DecidableEq

/-- Python truthiness of an optional string: `None` and `""` are falsy. -/
def truthyStr : Option String → Bool
  | Option.none => false
  | some s => !(s == "")

/-- The usage-error dictionary returned when neither argument is supplied
(source lines 771-776). -/
def usageError : DifyResult :=
  { success := false
    message := "必须提供csv_file_path或csv_content参数"
    processed_count := 0
    output_file := Option.none }

/-- Embedding of `process_csv_for_dify` (source lines 748-776). -/
def process_csv_for_dify (preFile preContent : String → DifyResult)
    (csv_file_path csv_content : Option String) : DifyResult :=
  if truthyStr csv_file_path then preFile (csv_file_path.getD "")
  else if truthyStr csv_content then preContent (csv_content.getD "")
  else usageError

/-! ### Output column shaping in `preprocess_csv` (source lines 608-625)

`preprocess_csv` builds one row dictionary per case (`result_dict`, source
lines 413-451 plus `case_id` at line 513), then reindexes the resulting
frame to the fixed `expected_columns` list, creating any missing column
with the empty string.  A row is modelled as an association list from
column name to cell text. -/

/-- The `expected_columns` list of `preprocess_csv` (source lines 608-619),
in source order. -/
def expectedColumns : List String :=
  ["case_id", "main_cust_name", "main_cust_id", "main_cust_industry",
   "main_cust_gender", "main_cust_open_date", "main_cust_addr", "main_cust_phone_number",
   "id_type", "id_number",
   "total_trans_amt", "trans_count", "avg_trans_amt",
   "max_trans_amt", "first_trans_date", "last_trans_date",
   "report_start_date", "report_end_date", "night_trans_count",
   "risk_keywords", "counterparty_sample", "top_opposing_areas",
   "main_tnx_channels", "sample_trx_list", "debit_count",
   "debit_amt", "credit_count", "credit_amt",
   "model_name", "is_network_gambling_suspected", "tr_org", "features", "highest_score",
   "ipv6_addr", "ip_addr", "mac_addr", "integer_trans_info"]

/-- The keys of the per-case `result_dict` built by `_aggregate_case_data`
(source lines 413-451, insertion order, plus `case_id` appended at source
line 513).  Note that `integer_trans_info` is never computed. -/
def resultDictKeys : List String :=
  ["main_cust_name", "main_cust_id", "main_cust_industry", "main_cust_gender",
   "main_cust_open_date", "main_cust_addr", "main_cust_phone_number",
   "id_type", "id_number", "total_trans_amt", "trans_count", "avg_trans_amt",
   "max_trans_amt", "first_trans_date", "last_trans_date",
   "report_start_date", "report_end_date", "night_trans_count",
   "risk_keywords", "counterparty_sample", "model_name", "highest_score",
   "features", "is_network_gambling_suspected", "sample_trx_list",
   "top_opposing_areas", "main_tnx_channels", "tr_org",
   "debit_count", "debit_amt", "credit_count", "credit_amt",
   "ipv6_addr", "ip_addr", "mac_addr", "case_id"]

/-- Embedding of the output-shaping step of `preprocess_csv` (source lines
621-625): every expected column is emitted in canonical order, taking the
computed value when the row has that column and the empty string otherwise. -/
def outputRow (d : List (String × String)) : List (String × String) :=
  expectedColumns.map fun c => (c, (d.lookup c).getD "")

/-! ### Concrete scenario data -/

/-- A row bearing the composite key `C1_T1`, used in the dedup scenario. -/
def rDup : Row :=
  { case_id := some "C1", trans_key := some "T1" }

/-- First row of the dispersion scenario: benign amount, its own IP and MAC
and a named counterparty. -/
def rowA : Row :=
  { case_id := some "C", trans_key := some "A", trans_amt := 151,
    ip_addr := some "10.0.0.1", mac_addr := some "aa:aa",
    counterparty_name := some "张三" }

/-- Second row of the dispersion scenario, with a different IP and MAC. -/
def rowB : Row :=
  { case_id := some "C", trans_key := some "B", trans_amt := 153,
    ip_addr := some "10.0.0.2", mac_addr := some "bb:bb",
    counterparty_name := some "李四" }

/-- Two-row case with two distinct IPs and MACs: both dispersion ratios are
1, above both thresholds. -/
def gDisp : List Row :=
  [rowA, rowB]

/-- One-row case with an IP address: its IP-dispersion ratio is 1. -/
def gIp : List Row :=
  [{ case_id := some "X", trans_key := some "K", ip_addr := some "1.2.3.4" }]

/-- Seven rows with distinct valid timestamps, for the sample-bound witness. -/
def gSeven : List Row :=
  [{ case_id := some "S", trans_key := some "T1", trans_datetime := some 1 },
   { case_id := some "S", trans_key := some "T2", trans_datetime := some 2 },
   { case_id := some "S", trans_key := some "T3", trans_datetime := some 3 },
   { case_id := some "S", trans_key := some "T4", trans_datetime := some 4 },
   { case_id := some "S", trans_key := some "T5", trans_datetime := some 5 },
   { case_id := some "S", trans_key := some "T6", trans_datetime := some 6 },
   { case_id := some "S", trans_key := some "T7", trans_datetime := some 7 }]

/-- Aggregation body for the isolation witness: the case `BAD` raises, every
other case succeeds with its own identifier as result. -/
def aggOneW : String → List Row → Option String :=
  fun c _ => if c = "BAD" then Option.none else some c

/-- Grouped data for the isolation witness. -/
def gsW : List (String × List Row) :=
  [("A", []), ("BAD", []), ("B", [])]

end AML

namespace AML

/-! ## Theorems -/

/-- C3 (code_bug): `_safe_convert_to_float` does return the supplied default
for `null`, `n/a`, `<null>`, `#n/a`, for the empty string, for `None`/`NaN`
inputs and for unparsable tokens like `"abc"` or `"N/A"`, and parses ordinary
numeric literals — but for the sentinel tokens `nan`, `inf`, `-inf` (any
case) the first `float(value)` call already succeeds, Python's `float`
accepting these spellings, so the sentinel branch that would return the
default is unreachable and the function returns the non-finite float instead
of the default.  The code's own sentinel list names `'nan'`, `'inf'`,
`'-inf'` as default-yielding, so the claim matches the intent and the code
diverges from it. -/
theorem toFloat_sentinel_bug :
    safe_convert_to_float (Value.str "nan") (PyFloat.finite 0) = PyFloat.nan ∧
    safe_convert_to_float (Value.str "inf") (PyFloat.finite 0) = PyFloat.inf ∧
    safe_convert_to_float (Value.str "-inf") (PyFloat.finite 0) = PyFloat.neginf ∧
    safe_convert_to_float (Value.str "NaN") (PyFloat.finite 0) = PyFloat.nan ∧
    safe_convert_to_float (Value.str "null") (PyFloat.finite 0) = PyFloat.finite 0 ∧
    safe_convert_to_float (Value.str "N/A") (PyFloat.finite 0) = PyFloat.finite 0 ∧
    safe_convert_to_float (Value.str "<null>") (PyFloat.finite 0) = PyFloat.finite 0 ∧
    safe_convert_to_float (Value.str "#n/a") (PyFloat.finite 0) = PyFloat.finite 0 ∧
    safe_convert_to_float (Value.str "") (PyFloat.finite 0) = PyFloat.finite 0 ∧
    safe_convert_to_float Value.noneV (PyFloat.finite 0) = PyFloat.finite 0 ∧
    safe_convert_to_float Value.nanV (PyFloat.finite 0) = PyFloat.finite 0 ∧
    safe_convert_to_float (Value.str "abc") (PyFloat.finite 0) = PyFloat.finite 0 ∧
    safe_convert_to_float (Value.str "abc") (PyFloat.finite 7) = PyFloat.finite 7 ∧
    safe_convert_to_float (Value.str "12") (PyFloat.finite 0) = PyFloat.finite 12 := by
  refine ⟨?_, ?_, ?_, ?_, ?_, ?_, ?_, ?_, ?_, ?_, ?_, ?_, ?_, ?_⟩ <;> decide

/-- C9: when a non-empty `csv_file_path` is supplied, the file-path branch is
taken and `csv_content` is ignored entirely — the result is that of
processing the file path alone, identical for every possible `csv_content`;
an empty string behaves like an omitted argument, so two empty strings fall
through to the usage-error dictionary
`{success := false, processed_count := 0, output_file := none}`. -/
theorem dify_entry_branching (preFile preContent : String → DifyResult)
    (fp : String) (content : Option String) (hfp : fp ≠ "") :
    process_csv_for_dify preFile preContent (some fp) content = preFile fp ∧
    (∀ other : Option String,
      process_csv_for_dify preFile preContent (some fp) content =
        process_csv_for_dify preFile preContent (some fp) other) ∧
    process_csv_for_dify preFile preContent (some "") (some "") = usageError ∧
    (process_csv_for_dify preFile preContent (some "") (some "")).success = false ∧
    (process_csv_for_dify preFile preContent (some "") (some "")).processed_count = 0 ∧
    (process_csv_for_dify preFile preContent (some "") (some "")).output_file = Option.none := by
  have ht : truthyStr (some fp) = true := by
    simp [truthyStr]
    exact hfp
  refine ⟨?_, ?_, ?_, ?_, ?_, ?_⟩ <;>
    simp [process_csv_for_dify, ht, truthyStr, usageError, hfp]

/-- Witness for C9 at a concrete call: file path `"in.csv"` with non-empty
content still routes to the file branch, and two empty strings produce the
usage-error result. -/
theorem dify_entry_branching_witness :
    process_csv_for_dify (fun p => ⟨true, p, 1, some "out.csv"⟩)
        (fun _ => ⟨true, "content", 2, some "out.csv"⟩)
        (some "in.csv") (some "ignored me") =
      ⟨true, "in.csv", 1, some "out.csv"⟩ ∧
    process_csv_for_dify (fun p => ⟨true, p, 1, some "out.csv"⟩)
        (fun _ => ⟨true, "content", 2, some "out.csv"⟩)
        (some "") (some "") = usageError :=
  ⟨(dify_entry_branching (fun p => ⟨true, p, 1, some "out.csv"⟩)
      (fun _ => ⟨true, "content", 2, some "out.csv"⟩)
      "in.csv" (some "ignored me") (by decide)).1,
   (dify_entry_branching (fun p => ⟨true, p, 1, some "out.csv"⟩)
      (fun _ => ⟨true, "content", 2, some "out.csv"⟩)
      "in.csv" (some "ignored me") (by decide)).2.2.1⟩

/-- Helper: projecting the first components of a key-tagged map recovers the
key list. -/
theorem map_fst_mk (l : List String) (f : String → String) :
    (l.map fun c => (c, f c)).map Prod.fst = l := by
  induction l with
  | nil => rfl
  | cons a t ih => simp only [List.map_cons, ih]

/-- Helper: a key absent from an association list's key set looks up to
`none`. -/
theorem lookup_eq_none_of_not_mem_keys (d : List (String × String)) (k : String)
    (h : k ∉ d.map Prod.fst) : d.lookup k = Option.none := by
  induction d with
  | nil => rfl
  | cons p rest ih =>
    simp only [List.map_cons, List.mem_cons] at h
    push_neg at h
    have hk : (k == p.1) = false := by
      simp [beq_eq_false_iff_ne]
      exact h.1
    cases p with
    | mk a b =>
      simp only [List.lookup]
      simp only [] at hk
      rw [hk]
      exact ih h.2

/-- C8: an output row built from a computed case dictionary (whose key set is
exactly `result_dict`'s) carries exactly the fixed expected column set in
canonical order, and the expected column `integer_trans_info` — which
aggregation never computes — is rendered as the empty string rather than
being absent. -/
theorem column_completeness (d : List (String × String))
    (hd : d.map Prod.fst = resultDictKeys) :
    (outputRow d).map Prod.fst = expectedColumns ∧
    (outputRow d).lookup "integer_trans_info" = some "" ∧
    ("integer_trans_info", "") ∈ outputRow d := by
  have hnone : d.lookup "integer_trans_info" = Option.none := by
    apply lookup_eq_none_of_not_mem_keys
    rw [hd]
    decide
  refine ⟨?_, ?_, ?_⟩
  · exact map_fst_mk expectedColumns fun c => (d.lookup c).getD ""
  · simp [outputRow, expectedColumns, List.lookup, hnone]
  · have : ("integer_trans_info", (d.lookup "integer_trans_info").getD "") ∈ outputRow d := by
      apply List.mem_map_of_mem (fun c => (c, (d.lookup c).getD ""))
      decide
    rwa [hnone] at this

/-- Witness for C8 on a concrete computed row carrying every `result_dict`
key: the reindexed output has the canonical column list and renders the
uncomputed `integer_trans_info` as the empty string. -/
theorem column_completeness_witness :
    (outputRow (resultDictKeys.map fun k => (k, "v"))).map Prod.fst = expectedColumns ∧
    (outputRow (resultDictKeys.map fun k => (k, "v"))).lookup "integer_trans_info" = some "" :=
  ⟨(column_completeness (resultDictKeys.map fun k => (k, "v"))
      (map_fst_mk resultDictKeys fun _ => "v")).1,
   (column_completeness (resultDictKeys.map fun k => (k, "v"))
      (map_fst_mk resultDictKeys fun _ => "v")).2.1⟩


/-- C4: the flexible timestamp parser tries the declared ordered format list
and the first exact match wins — in particular the locale-ambiguous
`"03/04/2024"` parses as March 4 because `%m/%d/%Y` precedes `%d/%m/%Y`,
even though the `%d/%m/%Y` format alone would read it as April 3; when no
exact format matches (including a textual match that pandas rejects with
`OutOfBoundsDatetime`, such as `"9999-12-31"`, outside the `Timestamp`
range), the permissive general-purpose fallback decides the result; a
null-sentinel token (or `None`/`NaN` input) yields null before any format is
tried; the function is total, so it never raises. -/
theorem flexible_datetime_spec (fallback : String → Option PyDateTime) (s : String) :
    (convert_single_datetime fallback DtValue.noneV = Option.none ∧
     convert_single_datetime fallback DtValue.nanV = Option.none) ∧
    (inTokens (trimChars s.toList) dtSentinels = true →
      convert_single_datetime fallback (DtValue.str s) = Option.none) ∧
    (∀ d, inTokens (trimChars s.toList) dtSentinels = false →
      firstMatch formatParsers (trimChars s.toList) = some d →
      convert_single_datetime fallback (DtValue.str s) = some d) ∧
    (inTokens (trimChars s.toList) dtSentinels = false →
      firstMatch formatParsers (trimChars s.toList) = Option.none →
      convert_single_datetime fallback (DtValue.str s) = fallback (String.mk (trimChars s.toList))) ∧
    convert_single_datetime fallback (DtValue.str "03/04/2024") = some ⟨2024, 3, 4, 0, 0, 0⟩ ∧
    tryFmt fmtDmY "03/04/2024".toList = some ⟨2024, 4, 3, 0, 0, 0⟩ ∧
    firstMatch formatParsers "9999-12-31".toList = Option.none ∧
    convert_single_datetime fallback (DtValue.str "9999-12-31") = fallback "9999-12-31" := by
  have hstr : ∀ s2 : String, convert_single_datetime fallback (DtValue.str s2) =
      if s2 = "" then Option.none
      else if inTokens (trimChars s2.toList) dtSentinels then Option.none
      else
        match firstMatch formatParsers (trimChars s2.toList) with
        | some d => some d
        | Option.none => fallback (String.mk (trimChars s2.toList)) :=
    fun _ => rfl
  refine ⟨⟨rfl, rfl⟩, ?_, ?_, ?_, ?_, by decide, by decide, ?_⟩
  · intro hsent
    rw [hstr]
    by_cases hs : s = ""
    · rw [if_pos hs]
    · rw [if_neg hs, if_pos hsent]
  · intro d hsent hfm
    have hs : s ≠ "" := fun he => absurd hsent (by rw [he]; decide)
    rw [hstr, if_neg hs, if_neg (by rw [hsent]; exact Bool.false_ne_true), hfm]
  · intro hsent hfm
    have hs : s ≠ "" := fun he => absurd hsent (by rw [he]; decide)
    rw [hstr, if_neg hs, if_neg (by rw [hsent]; exact Bool.false_ne_true), hfm]
  · have hconc : firstMatch formatParsers (trimChars "03/04/2024".toList) =
        some ⟨2024, 3, 4, 0, 0, 0⟩ := by decide
    rw [hstr, if_neg (by decide), if_neg (by decide), hconc]
  · have hnone : firstMatch formatParsers (trimChars "9999-12-31".toList) =
        Option.none := by decide
    rw [hstr, if_neg (by decide), if_neg (by decide), hnone]
    exact congrArg fallback (by decide)

/-- Witness for C4: an ISO date parses through the exact-format path with no
help from the fallback, a padded sentinel token yields null, and a date
beyond the pandas `Timestamp` range matches no exact format, so with a
failing fallback it yields null too. -/
theorem flexible_datetime_spec_witness :
    convert_single_datetime (fun _ => Option.none) (DtValue.str "2024-05-06") =
      some ⟨2024, 5, 6, 0, 0, 0⟩ ∧
    convert_single_datetime (fun _ => Option.none) (DtValue.str " null ") = Option.none ∧
    convert_single_datetime (fun _ => Option.none) (DtValue.str "9999-12-31") = Option.none :=
  ⟨(flexible_datetime_spec (fun _ => Option.none) "2024-05-06").2.2.1
      ⟨2024, 5, 6, 0, 0, 0⟩ (by decide) (by decide),
   (flexible_datetime_spec (fun _ => Option.none) " null ").2.1 (by decide),
   (flexible_datetime_spec (fun _ => Option.none) "9999-12-31").2.2.2.2.2.2.2⟩

/-! ### Lemmas for the cross-chunk deduplication claim -/

/-- Helper: Boolean set membership agrees with list membership. -/
theorem memKey_iff (k : String) (l : List String) : memKey k l = true ↔ k ∈ l := by
  induction l with
  | nil => simp [memKey]
  | cons a as ih => simp [memKey, ih, List.mem_cons]

/-- Helper: membership in an appended seen list. -/
theorem memKey_append_iff (k : String) (a b : List String) :
    memKey k (a ++ b) = true ↔ (k ∈ a ∨ k ∈ b) := by
  simp [memKey_iff]

/-- Helper: Boolean equality follows from equivalence of truth. -/
theorem bool_eq_of_iff {a b : Bool} (h : a = true ↔ b = true) : a = b := by
  cases a <;> cases b <;> simp_all

/-- Helper: the seen set after scanning a row list holds the old keys and
the scanned rows' keys. -/
theorem seenAfter_mem (xs : List Row) : ∀ seen : List String, ∀ k : String,
    (memKey k (seenAfter seen xs) = true ↔ (k ∈ seen ∨ k ∈ xs.map ckey)) := by
  induction xs with
  | nil =>
    intro seen k
    simp [seenAfter, memKey_iff]
  | cons r rs ih =>
    intro seen k
    rw [seenAfter]
    by_cases h : memKey (ckey r) seen = true
    · rw [if_pos h, ih]
      have hr : ckey r ∈ seen := (memKey_iff _ _).mp h
      have hrr : k = ckey r → k ∈ seen := fun he => he ▸ hr
      simp only [List.map_cons, List.mem_cons]
      tauto
    · rw [if_neg h, ih]
      simp only [List.map_cons, List.mem_cons]
      tauto

/-- Helper: `firstOccs` only depends on the membership content of the seen
set. -/
theorem firstOccs_congr (l : List Row) : ∀ s1 s2 : List String,
    (∀ k, memKey k s1 = memKey k s2) → firstOccs s1 l = firstOccs s2 l := by
  induction l with
  | nil => intro s1 s2 _; rfl
  | cons r rs ih =>
    intro s1 s2 h
    rw [firstOccs, firstOccs, h (ckey r)]
    by_cases hc : memKey (ckey r) s2 = true
    · rw [if_pos hc, if_pos hc]
      exact ih s1 s2 h
    · rw [if_neg hc, if_neg hc]
      have : firstOccs (ckey r :: s1) rs = firstOccs (ckey r :: s2) rs := by
        apply ih
        intro k
        simp only [memKey, h k]
      rw [this]

/-- Helper: `firstOccs` distributes over appending, threading the seen set. -/
theorem firstOccs_append (xs ys : List Row) : ∀ seen : List String,
    firstOccs seen (xs ++ ys) = firstOccs seen xs ++ firstOccs (seenAfter seen xs) ys := by
  induction xs with
  | nil => intro seen; rfl
  | cons r rs ih =>
    intro seen
    rw [List.cons_append, firstOccs, firstOccs, seenAfter]
    by_cases h : memKey (ckey r) seen = true
    · rw [if_pos h, if_pos h, if_pos h, ih]
    · rw [if_neg h, if_neg h, if_neg h, ih, List.cons_append]

/-- Helper: when the scanned rows carry pairwise distinct composite keys,
`firstOccs` is exactly the seen-set filter `_process_chunk` applies. -/
theorem firstOccs_eq_filter (xs : List Row) : ∀ s1 s2 : List String,
    ((xs.map ckey).Nodup) →
    (∀ r ∈ xs, memKey (ckey r) s2 = memKey (ckey r) s1) →
    firstOccs s2 xs = xs.filter fun r => !(memKey (ckey r) s1) := by
  induction xs with
  | nil => intro s1 s2 _ _; rfl
  | cons r rs ih =>
    intro s1 s2 hnd hagree
    simp only [List.map_cons, List.nodup_cons] at hnd
    have hr := hagree r (List.mem_cons_self r rs)
    rw [firstOccs, hr, List.filter_cons]
    by_cases hm : memKey (ckey r) s1 = true
    · rw [if_pos hm, hm]
      simp only [Bool.not_true, if_neg Bool.false_ne_true]
      exact ih s1 s2 hnd.2 fun x hx => hagree x (List.mem_cons_of_mem r hx)
    · have hm2 : memKey (ckey r) s1 = false := by
        cases hcc : memKey (ckey r) s1
        · rfl
        · exact absurd hcc hm
      rw [if_neg hm, hm2]
      simp only [Bool.not_false, if_true]
      have htail : firstOccs (ckey r :: s2) rs =
          rs.filter fun x => !(memKey (ckey x) s1) := by
        apply ih s1 (ckey r :: s2) hnd.2
        intro x hx
        have hne : (ckey x == ckey r) = false := by
          have : ckey x ≠ ckey r := by
            intro he
            exact hnd.1 (he ▸ List.mem_map_of_mem ckey hx)
          simp [this]
        simp only [memKey, hne, Bool.false_or]
        exact hagree x (List.mem_cons_of_mem r hx)
      rw [htail]

/-- Helper: a key is among the kept rows' keys exactly when it is among the
chunk's keys and not already seen. -/
theorem mem_kept_keys (xs : List Row) (seen : List String) (k : String) :
    k ∈ ((xs.filter fun r => !(memKey (ckey r) seen)).map ckey) ↔
      (k ∈ xs.map ckey ∧ memKey k seen = false) := by
  simp only [List.mem_map, List.mem_filter, Bool.not_eq_true']
  constructor
  · rintro ⟨r, ⟨hrx, hrs⟩, rfl⟩
    exact ⟨⟨r, hrx, rfl⟩, hrs⟩
  · rintro ⟨⟨r, hrx, rfl⟩, hks⟩
    exact ⟨r, ⟨hrx, hks⟩, rfl⟩

/-- Helper: the fold of `_process_chunk` over the chunks equals the
first-occurrence scan of all identifier-bearing rows, when every chunk's
keys are internally duplicate-free. -/
theorem run_chunks_eq (chunks : List (List Row)) : ∀ seen : List String,
    (∀ ch ∈ chunks, ((ch.filter hasIds).map ckey).Nodup) →
    run_chunks seen chunks = firstOccs seen (chunks.flatMap fun ch => ch.filter hasIds) := by
  induction chunks with
  | nil => intro seen _; rfl
  | cons c cs ih =>
    intro seen H
    have hc : ((c.filter hasIds).map ckey).Nodup := H c (List.mem_cons_self c cs)
    simp only [run_chunks, process_chunk, List.flatMap_cons]
    rw [firstOccs_append]
    congr 1
    · exact (firstOccs_eq_filter (c.filter hasIds) seen seen hc fun _ _ => rfl).symm
    · rw [ih _ fun ch h => H ch (List.mem_cons_of_mem c h)]
      apply firstOccs_congr
      intro k
      apply bool_eq_of_iff
      rw [memKey_append_iff, seenAfter_mem]
      rw [mem_kept_keys]
      constructor
      · rintro (hs | ⟨hm, _⟩)
        · exact Or.inl hs
        · exact Or.inr hm
      · rintro (hs | hm)
        · exact Or.inl hs
        · by_cases hk : memKey k seen = true
          · exact Or.inl ((memKey_iff _ _).mp hk)
          · have : memKey k seen = false := by
              cases hcc : memKey k seen
              · rfl
              · exact absurd hcc hk
            exact Or.inr ⟨hm, this⟩

/-- Helper: the first-occurrence scan emits pairwise distinct composite
keys, none of them previously seen. -/
theorem firstOccs_keys_nodup (l : List Row) : ∀ seen : List String,
    ((firstOccs seen l).map ckey).Nodup ∧
      ∀ r ∈ firstOccs seen l, memKey (ckey r) seen = false := by
  induction l with
  | nil =>
    intro seen
    exact ⟨List.nodup_nil, fun r hr => absurd hr (List.not_mem_nil r)⟩
  | cons r rs ih =>
    intro seen
    rw [firstOccs]
    by_cases h : memKey (ckey r) seen = true
    · rw [if_pos h]
      exact ih seen
    · have h0 : memKey (ckey r) seen = false := by
        cases hcc : memKey (ckey r) seen
        · rfl
        · exact absurd hcc h
      rw [if_neg h]
      have htail := ih (ckey r :: seen)
      refine ⟨?_, ?_⟩
      · simp only [List.map_cons, List.nodup_cons]
        refine ⟨?_, htail.1⟩
        intro hmem
        rcases List.mem_map.mp hmem with ⟨x, hx, hxe⟩
        have := htail.2 x hx
        simp only [memKey, hxe] at this
        simp at this
      · intro x hx
        rcases List.mem_cons.mp hx with he | ht
        · exact he ▸ h0
        · have := htail.2 x ht
          simp only [memKey, Bool.or_eq_false_iff] at this
          exact this.2


/-- C1 (amended): rows missing `case_id` or `trans_key` are dropped, and the
remaining rows are deduplicated by composite key against the
pipeline-lifetime seen-key set, which is updated after each chunk — so a
composite key's survivors are exactly the identifier-bearing rows carrying
it in the first chunk where it appears.  Provided each composite key occurs
at most once per chunk (the mask of `_process_chunk` is computed before the
set is updated, so duplicates arriving inside one chunk all survive), at
most one row per composite key survives into any case's accumulated group,
and a case's `trans_count` equals the number of distinct composite keys
whose first surviving occurrence carries that case's id. -/
theorem chunk_dedup_amended (chunks : List (List Row)) (c : String)
    (H : ∀ ch ∈ chunks, ((ch.filter hasIds).map ckey).Nodup) :
    pipeline_survivors chunks = firstOccs [] (allIdRows chunks) ∧
    ((pipeline_survivors chunks).map ckey).Nodup ∧
    trans_count chunks c =
      ((firstOccs [] (allIdRows chunks)).filter fun r => r.case_id == some c).length := by
  have h1 : pipeline_survivors chunks = firstOccs [] (allIdRows chunks) :=
    run_chunks_eq chunks [] H
  refine ⟨h1, ?_, ?_⟩
  · rw [h1]
    exact (firstOccs_keys_nodup (allIdRows chunks) []).1
  · rw [trans_count, accum_group, h1]

/-- C1 (counterexample to the claim as stated): two rows with the same
composite key `C1_T1` arriving in the same chunk both survive — the seen-key
set is only consulted against earlier chunks — so case `C1`'s accumulated
group keeps two rows with one composite key and its `trans_count` is 2,
not the 1 distinct composite key contributed. -/
theorem chunk_dedup_claim_counterexample :
    trans_count [[rDup, rDup]] "C1" = 2 ∧
    (accum_group [[rDup, rDup]] "C1").map ckey = ["C1_T1", "C1_T1"] ∧
    (((accum_group [[rDup, rDup]] "C1").map ckey).eraseDups).length = 1 := by
  refine ⟨?_, ?_, ?_⟩ <;> decide

/-- Witness for the amended C1 on the spec's own scenario: the two rows
sharing `case_id="C1", trans_key="T1"` across two chunks of size 1 reduce to
one surviving row, `trans_count = 1`. -/
theorem chunk_dedup_amended_witness :
    trans_count [[rDup], [rDup]] "C1" =
      ((firstOccs [] (allIdRows [[rDup], [rDup]])).filter fun r => r.case_id == some "C1").length ∧
    trans_count [[rDup], [rDup]] "C1" = 1 :=
  ⟨(chunk_dedup_amended [[rDup], [rDup]] "C1" (by decide)).2.2, by decide⟩

/-- C7: in `_aggregate_case_data`, a case whose aggregation raises is left
out of both the result list and the processed-case set, while every case
whose aggregation succeeds contributes its profile to the output — one
case's failure never aborts the run or suppresses other cases' results.
(The case identifiers handed over by the pipeline's `groupby` are pairwise
distinct.) -/
theorem case_isolation {α : Type} (aggOne : String → List Row → Option α)
    (gs : List (String × List Row)) (hnd : (gs.map Prod.fst).Nodup) :
    (∀ cg ∈ gs, aggOne cg.1 cg.2 = Option.none →
      cg.1 ∉ (aggregate_case_data aggOne gs).2) ∧
    (∀ cg ∈ gs, ∀ p, aggOne cg.1 cg.2 = some p →
      p ∈ (aggregate_case_data aggOne gs).1 ∧ cg.1 ∈ (aggregate_case_data aggOne gs).2) := by
  constructor
  · rintro ⟨c, g⟩ hmem hfail hproc
    rw [aggregate_case_data] at hproc
    simp only [List.mem_filterMap] at hproc
    rcases hproc with ⟨⟨c2, g2⟩, hmem2, heq⟩
    rcases Option.map_eq_some'.mp heq with ⟨a, ha, hc⟩
    have hpair : (c2, g2) = (c, g) :=
      List.inj_on_of_nodup_map hnd hmem2 hmem (by simpa using hc)
    rw [hpair] at ha
    rw [hfail] at ha
    cases ha
  · rintro ⟨c, g⟩ hmem p hp
    constructor
    · rw [aggregate_case_data]
      simp only [List.mem_filterMap]
      exact ⟨(c, g), hmem, hp⟩
    · rw [aggregate_case_data]
      simp only [List.mem_filterMap]
      refine ⟨(c, g), hmem, ?_⟩
      rw [hp]
      rfl


/-! ### Lemmas for the risk-keyword and suspicion-flag claims -/

/-- Helper: a ratio of counts strictly above a positive threshold forces
both counts positive (division by zero is zero in `ℚ`). -/
theorem ratio_pos_of_gt {u t : Nat} {c : ℚ} (hc : 0 < c)
    (h : (u : ℚ) / (t : ℚ) > c) : 0 < u ∧ 0 < t := by
  constructor
  · rcases Nat.eq_zero_or_pos u with h0 | hp
    · subst h0
      rw [Nat.cast_zero, zero_div] at h
      exact absurd h (lt_asymm hc)
    · exact hp
  · rcases Nat.eq_zero_or_pos t with h0 | hp
    · subst h0
      rw [Nat.cast_zero, div_zero] at h
      exact absurd h (lt_asymm hc)
    · exact hp

/-- Helper: the guards of the IP-dispersion test are subsumed by its ratio
condition. -/
theorem ipDisp_iff (g : List Row) :
    ipDisp g = true ↔ (uniqueIps g : ℚ) / (g.length : ℚ) > 1/2 := by
  rw [ipDisp]
  simp only [Bool.and_eq_true, decide_eq_true_eq]
  constructor
  · rintro ⟨⟨_, _⟩, h⟩
    exact h
  · intro h
    have hp := ratio_pos_of_gt (by norm_num) h
    exact ⟨⟨hp.1, hp.2⟩, h⟩

/-- Helper: the guards of the MAC-dispersion test are subsumed by its ratio
condition. -/
theorem macDisp_iff (g : List Row) :
    macDisp g = true ↔ (uniqueMacs g : ℚ) / (g.length : ℚ) > 3/10 := by
  rw [macDisp]
  simp only [Bool.and_eq_true, decide_eq_true_eq]
  constructor
  · rintro ⟨⟨_, _⟩, h⟩
    exact h
  · intro h
    have hp := ratio_pos_of_gt (by norm_num) h
    exact ⟨⟨hp.1, hp.2⟩, h⟩

/-- Helper: the valid-hour guard of the gambling test is subsumed by the
night-ratio condition. -/
theorem networkGambling_iff (g : List Row) :
    networkGambling g = true ↔
      (50 ≤ g.length ∧ avgAmt g ≤ 10 ∧
        (nightCnt g : ℚ) / ((validHours g).length : ℚ) > 8/10 ∧
        ∃ r ∈ g, (strContains (r.fund_usage.getD "") "充值" = true ∨
                  strContains (r.fund_usage.getD "") "返现" = true)) := by
  rw [networkGambling]
  simp only [Bool.and_eq_true, decide_eq_true_eq, List.any_eq_true, Bool.or_eq_true]
  constructor
  · rintro ⟨⟨⟨⟨h50, havg⟩, _⟩, hr⟩, hf⟩
    exact ⟨h50, havg, hr, hf⟩
  · rintro ⟨h50, havg, hr, hf⟩
    have hpos : 0 < (validHours g).length := by
      rcases Nat.eq_zero_or_pos (validHours g).length with h0 | hp
      · rw [h0, Nat.cast_zero, div_zero] at hr
        norm_num at hr
      · exact hp
    exact ⟨⟨⟨⟨h50, havg⟩, hpos⟩, hr⟩, hf⟩

/-- C6: the rendered suspicion flag is the affirmative string `'是'` exactly
when (a) at least 50 rows with mean amount at most 10, night ratio above 0.8
over the rows with valid hours, and some `fund_usage` matching the
recharge/cashback keywords, or (b) distinct non-null IPs over row count
above one half, or (c) distinct non-null MACs over row count above 0.3;
otherwise it is `'否'`. -/
theorem gambling_flag_iff (g : List Row) :
    is_network_gambling_suspected g = "是" ↔
      ((50 ≤ g.length ∧ avgAmt g ≤ 10 ∧
        (nightCnt g : ℚ) / ((validHours g).length : ℚ) > 8/10 ∧
        ∃ r ∈ g, (strContains (r.fund_usage.getD "") "充值" = true ∨
                  strContains (r.fund_usage.getD "") "返现" = true)) ∨
       (uniqueIps g : ℚ) / (g.length : ℚ) > 1/2 ∨
       (uniqueMacs g : ℚ) / (g.length : ℚ) > 3/10) := by
  rw [is_network_gambling_suspected]
  constructor
  · intro h
    by_cases hb : (networkGambling g || ipDisp g || macDisp g) = true
    · simp only [Bool.or_eq_true] at hb
      rcases hb with (hg | hip) | hmac
      · exact Or.inl ((networkGambling_iff g).mp hg)
      · exact Or.inr (Or.inl ((ipDisp_iff g).mp hip))
      · exact Or.inr (Or.inr ((macDisp_iff g).mp hmac))
    · rw [if_neg hb] at h
      exact absurd h (by decide)
  · intro h
    have hb : (networkGambling g || ipDisp g || macDisp g) = true := by
      simp only [Bool.or_eq_true]
      rcases h with hg | hip | hmac
      · exact Or.inl (Or.inl ((networkGambling_iff g).mpr hg))
      · exact Or.inl (Or.inr ((ipDisp_iff g).mpr hip))
      · exact Or.inr ((macDisp_iff g).mpr hmac)
    rw [if_pos hb]

/-- Witness for C6: a one-row case with a single IP has dispersion ratio 1,
so condition (b) alone renders the flag `'是'`. -/
theorem gambling_flag_iff_witness :
    is_network_gambling_suspected gIp = "是" :=
  (gambling_flag_iff gIp).mpr (Or.inr (Or.inl (by
    rw [show uniqueIps gIp = 1 from by decide, show gIp.length = 1 from rfl]
    norm_num)))

/-- C10: whenever a case group has more than one distinct non-null `ip_addr`
value, the tag `'多IP'` is in the keyword set when `risk_keywords` is
rendered (and hence in the sorted list the rendering joins); likewise
`'多设备'` for more than one distinct non-null `mac_addr` value. -/
theorem multi_ip_mac_keywords (g : List Row) :
    (1 < uniqueIps g → "多IP" ∈ keywordList g ∧ "多IP" ∈ sortedKeywords g) ∧
    (1 < uniqueMacs g → "多设备" ∈ keywordList g ∧ "多设备" ∈ sortedKeywords g) := by
  have hsort : ∀ x : String, x ∈ keywordList g → x ∈ sortedKeywords g := fun x hx =>
    ((List.perm_insertionSort (fun a b => pyStrLeB a b = true) (keywordList g)).mem_iff).mpr hx
  constructor
  · intro h
    have hmem : "多IP" ∈ keywordList g := by
      have hin : "多IP" ∈ (if 1 < uniqueIps g then ["多IP"] else ([] : List String)) := by
        rw [if_pos h]
        exact List.mem_singleton.mpr rfl
      simp only [keywordList, List.mem_append]
      tauto
    exact ⟨hmem, hsort _ hmem⟩
  · intro h
    have hmem : "多设备" ∈ keywordList g := by
      have hin : "多设备" ∈ (if 1 < uniqueMacs g then ["多设备"] else ([] : List String)) := by
        rw [if_pos h]
        exact List.mem_singleton.mpr rfl
      simp only [keywordList, List.mem_append]
      tauto
    exact ⟨hmem, hsort _ hmem⟩


/-! ### Evaluating the dispersion scenario `gDisp` -/

/-- Helper: the mean amount of the dispersion scenario is 152. -/
theorem gDisp_avg : avgAmt gDisp = 152 := by
  simp only [avgAmt, gDisp, amounts, rowA, rowB, List.map_cons, List.map_nil,
    List.sum_cons, List.sum_nil, List.isEmpty_cons, List.length_cons, List.length_nil]
  norm_num

/-- Helper: the keyword set of the dispersion scenario at rendering time. -/
theorem gDisp_keywords : keywordList gDisp = ["整数金额高", "多IP", "多设备"] := by
  have hlen : gDisp.length = 2 := rfl
  have havg : ¬ (avgAmt gDisp ≤ 10) := by
    rw [gDisp_avg]
    norm_num
  have hfreq : ¬ (50 ≤ gDisp.length) := by
    rw [hlen]
    norm_num
  have hnight : ¬ (0 < (validHours gDisp).length ∧
      ((nightCnt gDisp : ℚ) / ((validHours gDisp).length : ℚ) > 8/10)) := by
    rintro ⟨h, _⟩
    rw [show (validHours gDisp).length = 0 from rfl] at h
    exact Nat.lt_irrefl 0 h
  have hint : (0 < gDisp.length ∧ ((intAmtCnt gDisp : ℚ) / (gDisp.length : ℚ) > 7/10)) := by
    refine ⟨by rw [hlen]; norm_num, ?_⟩
    rw [show intAmtCnt gDisp = 2 from by decide, hlen]
    norm_num
  have hround : ¬ (0 < gDisp.length ∧
      ((roundAmtCnt gDisp : ℚ) / (gDisp.length : ℚ) > 5/10)) := by
    rintro ⟨_, h⟩
    rw [show roundAmtCnt gDisp = 0 from by decide, hlen] at h
    norm_num at h
  have hip : 1 < uniqueIps gDisp := by decide
  have hmac : 1 < uniqueMacs gDisp := by decide
  have hnan : ¬ ((nanCounterpartyCnt gDisp : ℚ) > (gDisp.length : ℚ) * (1/2)) := by
    rw [show nanCounterpartyCnt gDisp = 0 from by decide, hlen]
    norm_num
  have hsusp : ¬ (suspiciousUsage gDisp = true) := by decide
  rw [keywordList, if_neg havg, if_neg hfreq, if_neg hnight, if_pos hint,
    if_neg hround, if_pos hip, if_pos hmac, if_neg hnan, if_neg hsusp]
  rfl

/-- Helper: the sorted keyword list of the dispersion scenario. -/
theorem gDisp_sorted : sortedKeywords gDisp = ["多IP", "多设备", "整数金额高"] := by
  rw [sortedKeywords, gDisp_keywords]
  decide

/-- Helper: the rendered `risk_keywords` string of the dispersion scenario. -/
theorem gDisp_risk : risk_keywords gDisp = "多IP,多设备,整数金额高" := by
  rw [risk_keywords, gDisp_sorted]
  decide

/-- Helper: the IP-dispersion ratio of the dispersion scenario. -/
theorem gDisp_ip_ratio : (uniqueIps gDisp : ℚ) / (gDisp.length : ℚ) > 1/2 := by
  rw [show uniqueIps gDisp = 2 from by decide, show gDisp.length = 2 from rfl]
  norm_num

/-- Helper: the MAC-dispersion ratio of the dispersion scenario. -/
theorem gDisp_mac_ratio : (uniqueMacs gDisp : ℚ) / (gDisp.length : ℚ) > 3/10 := by
  rw [show uniqueMacs gDisp = 2 from by decide, show gDisp.length = 2 from rfl]
  norm_num

/-- Helper: the IP-dispersion test fires on the dispersion scenario. -/
theorem gDisp_ipDisp : ipDisp gDisp = true :=
  (ipDisp_iff gDisp).mpr gDisp_ip_ratio

/-- Helper: the MAC-dispersion test fires on the dispersion scenario. -/
theorem gDisp_macDisp : macDisp gDisp = true :=
  (macDisp_iff gDisp).mpr gDisp_mac_ratio

/-- Witness for C10: on the two-IP/two-MAC case both tags are in the sorted
keyword list, and the rendered `risk_keywords` cell carries them. -/
theorem multi_ip_mac_keywords_witness :
    ("多IP" ∈ sortedKeywords gDisp ∧ "多设备" ∈ sortedKeywords gDisp) ∧
    risk_keywords gDisp = "多IP,多设备,整数金额高" :=
  ⟨⟨((multi_ip_mac_keywords gDisp).1 (by decide)).2,
    ((multi_ip_mac_keywords gDisp).2 (by decide)).2⟩,
   gDisp_risk⟩

/-- C2 (code_bug): on a case where both dispersion ratios exceed their
thresholds (two rows, two distinct IPs and MACs: both ratios are 1), the
dispersion tests fire and add `'IP分散'`/`'设备分散'` to the keyword set —
but only after `risk_keywords` was already rendered at source line 432, so
the rendered string contains neither keyword.  The claim (and the spec's
step-3 list) say the rendered string contains them whenever the ratios
exceed 0.5 resp. 0.3; the code adds them to a set it never reads again. -/
theorem ip_mac_dispersion_keywords_bug :
    (uniqueIps gDisp : ℚ) / (gDisp.length : ℚ) > 1/2 ∧
    (uniqueMacs gDisp : ℚ) / (gDisp.length : ℚ) > 3/10 ∧
    ipDisp gDisp = true ∧
    macDisp gDisp = true ∧
    risk_keywords gDisp = "多IP,多设备,整数金额高" ∧
    "IP分散" ∉ sortedKeywords gDisp ∧
    "设备分散" ∉ sortedKeywords gDisp ∧
    "IP分散" ∈ keywordsFinal gDisp ∧
    "设备分散" ∈ keywordsFinal gDisp := by
  have hkf : keywordsFinal gDisp = ["整数金额高", "多IP", "多设备", "IP分散", "设备分散"] := by
    simp [keywordsFinal, gDisp_keywords, gDisp_ipDisp, gDisp_macDisp]
  refine ⟨gDisp_ip_ratio, gDisp_mac_ratio, gDisp_ipDisp, gDisp_macDisp, gDisp_risk,
    ?_, ?_, ?_, ?_⟩
  · rw [gDisp_sorted]
    decide
  · rw [gDisp_sorted]
    decide
  · rw [hkf]
    decide
  · rw [hkf]
    decide


/-- Witness for C7: with the case `BAD` forced to raise among `A` and `B`,
`BAD` is absent from the processed-case set while `A`'s result and id are
present. -/
theorem case_isolation_witness :
    ("BAD" ∉ (aggregate_case_data aggOneW gsW).2) ∧
    ("A" ∈ (aggregate_case_data aggOneW gsW).1 ∧ "A" ∈ (aggregate_case_data aggOneW gsW).2) :=
  ⟨(case_isolation aggOneW gsW (by decide)).1 ("BAD", []) (by decide) (by decide),
   (case_isolation aggOneW gsW (by decide)).2 ("A", []) (by decide) "A" (by decide)⟩

/-! ### Lemmas for the representative-sample claim -/

/-- Helper: timestamp-based de-duplication never lengthens the list. -/
theorem dedupByDt_length_le (l : List Row) : ∀ seen, (dedupByDt seen l).length ≤ l.length := by
  induction l with
  | nil =>
    intro seen
    exact Nat.le_refl 0
  | cons r rs ih =>
    intro seen
    rw [dedupByDt]
    by_cases h : memInt (dtKey r) seen = true
    · rw [if_pos h]
      exact Nat.le_succ_of_le (ih seen)
    · rw [if_neg h]
      simp only [List.length_cons]
      exact Nat.succ_le_succ (ih (dtKey r :: seen))

/-- Helper: timestamp-based de-duplication only keeps rows of its input. -/
theorem dedupByDt_subset (l : List Row) : ∀ seen, ∀ x ∈ dedupByDt seen l, x ∈ l := by
  induction l with
  | nil =>
    intro seen x hx
    exact absurd hx (List.not_mem_nil x)
  | cons r rs ih =>
    intro seen x hx
    rw [dedupByDt] at hx
    by_cases h : memInt (dtKey r) seen = true
    · rw [if_pos h] at hx
      exact List.mem_cons_of_mem r (ih seen x hx)
    · rw [if_neg h] at hx
      rcases List.mem_cons.mp hx with he | ht
      · exact he ▸ List.mem_cons_self r rs
      · exact List.mem_cons_of_mem r (ih _ x ht)

/-- Helper: the low-value filter stage only keeps rows of the group. -/
theorem validTrx_subset (g : List Row) : ∀ x ∈ validTrx g, x ∈ g := by
  intro x hx
  rw [validTrx] at hx
  split at hx
  · exact hx
  · exact (List.mem_filter.mp hx).1

/-- Helper: every row of the combined earliest/latest extract is a
timestamped row of the filtered group. -/
theorem combinedTrx_mem (g : List Row) : ∀ x ∈ combinedTrx g, x ∈ withDt g := by
  intro x hx
  rw [combinedTrx] at hx
  split at hx
  · exact absurd hx (List.not_mem_nil x)
  · rcases List.mem_append.mp hx with h1 | h2
    · have := List.take_subset 3 _ h1
      exact ((List.perm_insertionSort (fun a b => dtKey a ≤ dtKey b) (withDt g)).mem_iff).mp this
    · have := List.take_subset 3 _ h2
      exact ((List.perm_insertionSort (fun a b => dtKey b ≤ dtKey a) (withDt g)).mem_iff).mp this

/-- C5: for any case with at least 6 valid-timestamp transactions, the
emitted `sample_trx_list` has at most 6 entries (the 3 earliest and 3 latest
by timestamp, de-duplicated by exact timestamp), every entry derives from
one of the case's actual rows, and an entry's currency is `'CNY'` exactly
when the underlying row's currency cell is null. -/
theorem sample_trx_bound (g : List Row)
    (hvalid : 6 ≤ (g.filter fun r => r.trans_datetime.isSome).length) :
    (sample_trx_list g).length ≤ 6 ∧
    ∀ e ∈ sample_trx_list g, ∃ r ∈ g, e = mkSample r ∧ e.curr_cd = r.currency.getD "CNY" := by
  constructor
  · rw [sample_trx_list, List.length_map]
    refine le_trans (dedupByDt_length_le _ []) ?_
    rw [combinedTrx]
    split
    · norm_num
    · rw [List.length_append]
      have h1 : (firstTrx g).length ≤ 3 := by
        rw [firstTrx]
        exact List.length_take_le _ _
      have h2 : (lastTrx g).length ≤ 3 := by
        rw [lastTrx]
        exact List.length_take_le _ _
      omega
  · intro e he
    rw [sample_trx_list] at he
    rcases List.mem_map.mp he with ⟨r, hr, hre⟩
    have hrg : r ∈ g := by
      have h1 := dedupByDt_subset _ [] r hr
      have h2 := combinedTrx_mem g r h1
      rw [withDt] at h2
      exact validTrx_subset g r (List.mem_filter.mp h2).1
    refine ⟨r, hrg, hre.symm, ?_⟩
    rw [← hre]
    rfl

/-- Witness for C5: seven rows with distinct valid timestamps yield a sample
of at most 6 entries. -/
theorem sample_trx_bound_witness :
    6 ≤ (gSeven.filter fun r => r.trans_datetime.isSome).length ∧
    (sample_trx_list gSeven).length ≤ 6 :=
  ⟨by decide, (sample_trx_bound gSeven (by decide)).1⟩

end AML
